import Mathlib

/-!
Verification development for `src/ragavi/ragavi.py`.

The file embeds, as Lean definitions, the parts of the program the claims
touch: the table-kind classifier (`determine_table`), the per-kind data
transforms (`data_prep_G`, `data_prep_K`), the axis-range finalization, the
legend batching loop, the antenna-selection filter, the initial glyph
visibility rule, the kind dispatch inside `main`, an effect-trace model of
`main`'s control flow up to its abort points, and the client-side
visibility state machine expressed by the widget callbacks.

Modelling conventions: Python floats are idealized as exact rationals or
reals; numpy arrays are lists (3-D arrays are `List (List (List α))`) with
out-of-range reads returning an explicit default; Python dynamic-type
errors (`TypeError` from `".G" in -1`, `IndexError` from `times[0]` on an
empty column) are `Except` errors.
-/

namespace Ragavi

/-! ### TableKindClassifier: `determine_table` (source lines 42-53) -/

/-- Characters accepted by the group `(G|K|B)` of the pattern
`\.(G|K|B)\d*$` compiled with `re.I` (case-insensitive). -/
def isKindLetter (c : Char) : Bool :=
  c = 'G' || c = 'K' || c = 'B' || c = 'g' || c = 'k' || c = 'b'

/-- Whether the pattern `\.(G|K|B)\d*$` matches when anchored at the start
of the given character list (the `$` forces the digits to run to the end). -/
def suffixMatch : List Char → Bool
  | c :: k :: ds => c = '.' && isKindLetter k && ds.all Char.isDigit
  | _ => false

/-- Leftmost-match search, as `re.compile(...).search` performs it: try the
pattern at each successive start position. -/
def reSearch : List Char → Option (List Char)
  | [] => none
  | c :: cs => if suffixMatch (c :: cs) then some (c :: cs) else reSearch cs

/-- Embedding of `determine_table`: search the name for `\.(G|K|B)\d*$`
case-insensitively; on a match return the matched text uppercased
(`found.group().upper()`), otherwise the Python int `-1` (the
`AttributeError` branch). The dynamic result type `str | int` is the sum. -/
def determine_table (table_name : String) : Sum String Int :=
  match reSearch table_name.data with
  | some m => Sum.inl ⟨m.map Char.toUpper⟩
  | none => Sum.inr (-1)

/-! ### Python runtime errors and the kind dispatch in `main` -/

/-- The two Python runtime errors the modelled control flow can raise. -/
inductive PyErr
  | typeError
  | indexError
deriving DecidableEq

/-- Python `needle in x` where `x` is the dynamically-typed result of
`determine_table`: substring containment for a string, `TypeError`
("argument of type 'int' is not iterable") for the int `-1`. -/
def strIn (needle : String) (x : Sum String Int) : Except PyErr Bool :=
  match x with
  | Sum.inl s => Except.ok (decide (needle.data <:+: s.data))
  | Sum.inr _ => Except.error PyErr.typeError

/-- The branch of `main`'s per-antenna `if/elif` chain that a table name
selects (source lines 454-496 for `ap`, 503-536 for `ri`; both test
`".G"`, `".B"`, `".K"`, then `determine_table(mytab) == -1`). -/
inductive KindBranch
  | gainG
  | bandB
  | delayK
  | invalidTable
  | fallthrough
deriving DecidableEq

/-- Embedding of the `if/elif` chain on `determine_table(mytab)`: each
membership test is evaluated in order and may raise, exactly as the
Python conditions do. -/
def kindDispatch (table_name : String) : Except PyErr KindBranch :=
  let x := determine_table table_name
  match strIn ".G" x with
  | Except.error e => Except.error e
  | Except.ok true => Except.ok KindBranch.gainG
  | Except.ok false =>
    match strIn ".B" x with
    | Except.error e => Except.error e
    | Except.ok true => Except.ok KindBranch.bandB
    | Except.ok false =>
      match strIn ".K" x with
      | Except.error e => Except.error e
      | Except.ok true => Except.ok KindBranch.delayK
      | Except.ok false =>
        if x = Sum.inr (-1) then Except.ok KindBranch.invalidTable
        else Except.ok KindBranch.fallthrough

/-! ### LegendBatcher: the batching loop (source lines 621-648) -/

/-- `BATCH_SIZE = 16`. -/
def BATCH_SIZE : Nat := 16

/-- `num_legend_objs = int(np.ceil(len(plotants) / float(BATCH_SIZE)))`. -/
def num_legend_objs (n : Nat) : Nat := (n + BATCH_SIZE - 1) / BATCH_SIZE

/-- The batching loop: for `i in range(num_legend_objs)`, slice
`items[j : j+16]` with `j = 16 * i`.  The source's `if i == num_legend_objs`
branch (which would take `items[j:]`) is kept although `i` never reaches
`num_legend_objs` inside `range(num_legend_objs)`. -/
def mkBatches {α : Type} (items : List α) : List (List α) :=
  (List.range (num_legend_objs items.length)).map fun i =>
    if i = num_legend_objs items.length then items.drop (BATCH_SIZE * i)
    else (items.drop (BATCH_SIZE * i)).take BATCH_SIZE

/-! ### AxisRangeAggregator finalization (source lines 578-606) -/

/-- The six running extent accumulators of `main`. -/
structure AxisExtents where
  xmin : ℚ
  xmax : ℚ
  yumin : ℚ
  yumax : ℚ
  ylmin : ℚ
  ylmax : ℚ
deriving DecidableEq

/-- The six CLI axis-bound options; `-1` is the "not supplied" default. -/
structure AxisOverrides where
  t0 : ℚ
  t1 : ℚ
  yu0 : ℚ
  yu1 : ℚ
  yl0 : ℚ
  yl1 : ℚ
deriving DecidableEq

/-- Embedding of the extent finalization: additive x pad of 400 on both
ends, the sign-asymmetric 10% y pads (`-1*(1.1*abs(m))` for a negative
minimum, `m*0.9` otherwise, `m*1.1` for maxima), then each caller override
that differs from the `-1` sentinel replaces the computed bound. -/
def finalizeRanges (e : AxisExtents) (o : AxisOverrides) : AxisExtents :=
  let xmin := e.xmin - 400
  let xmax := e.xmax + 400
  let yumin := if e.yumin < 0 then -(1.1 * |e.yumin|) else e.yumin * 0.9
  let yumax := e.yumax * 1.1
  let ylmin := if e.ylmin < 0 then -(1.1 * |e.ylmin|) else e.ylmin * 0.9
  let ylmax := e.ylmax * 1.1
  { xmin := if o.t0 ≠ -1 then o.t0 else xmin
    xmax := if o.t1 ≠ -1 then o.t1 else xmax
    yumin := if o.yu0 ≠ -1 then o.yu0 else yumin
    yumax := if o.yu1 ≠ -1 then o.yu1 else yumax
    ylmin := if o.yl0 ≠ -1 then o.yl0 else ylmin
    ylmax := if o.yl1 ≠ -1 then o.yl1 else ylmax }

/-! ### 3-D arrays and `data_prep_K` (source lines 235-260) -/

/-- A 3-D numpy array (rows x channels x correlations) as nested lists. -/
abbrev Arr3 (α : Type) := List (List (List α))

/-- The slice `a[:, 0, corr]`; reads outside the stored extent return the
default `d` (the claims only exercise in-range reads). -/
def sliceC0 {α : Type} (a : Arr3 α) (corr : Nat) (d : α) : List α :=
  a.map fun row => (row.headD []).getD corr d

/-- Elementwise map over a 3-D array. -/
def map3 {α β : Type} (f : α → β) (a : Arr3 α) : Arr3 β :=
  a.map (List.map (List.map f))

/-- Python `int(not corr)` for a non-negative int `corr`. -/
def pyNotInt (corr : Nat) : Nat := if corr = 0 then 1 else 0

/-- Embedding of `data_prep_K`: `y1 = masked_data[:, 0, corr]`,
`y1_err = masked_data_err` (the whole array, untouched),
`y2 = masked_data[:, 0, int(not corr)]`, `y2_err = masked_data_err`. -/
def data_prep_K {α : Type} (masked_data masked_data_err : Arr3 α) (corr : Nat)
    (d : α) : List α × Arr3 α × List α × Arr3 α :=
  (sliceC0 masked_data corr d, masked_data_err,
   sliceC0 masked_data (pyNotInt corr) d, masked_data_err)

/-! ### Antenna-selection filtering (source lines 367-379) -/

/-- Python `list.remove`: drop the first occurrence of `a`. -/
def pyRemove (l : List Int) (a : Int) : List Int :=
  match l with
  | [] => []
  | x :: xs => if x = a then xs else x :: pyRemove xs a

/-- One scan of the `for ant in plotants: if int(ant) not in ants:
plotants.remove(ant)` loop.  CPython's list iterator keeps a plain index
`i` into the mutating list, so a removal at the scan position shifts the
next element into the just-scanned slot and the iterator skips it.  The
`fuel` counter only bounds the recursion; the iteration really stops when
`i` reaches the current length, and the initial fuel `l.length` always
suffices because `i` grows by one per step while the length never grows. -/
def filterAntsGo (ants : List Int) (fuel : Nat) (l : List Int) (i : Nat) :
    List Int :=
  match fuel with
  | 0 => l
  | fuel' + 1 =>
    if h : i < l.length then
      if l[i] ∈ ants then filterAntsGo ants fuel' l (i + 1)
      else filterAntsGo ants fuel' (pyRemove l l[i]) (i + 1)
    else l

/-- The antenna-selection filtering pass over the user-supplied list `l`
against the table's antenna set `ants` (source lines 371-374). -/
def filterAnts (ants l : List Int) : List Int :=
  filterAntsGo ants l.length l 0

/-! ### Initial glyph visibility (source lines 543-545) -/

/-- `if ant > 0: p1.visible = p2.visible = False`; glyphs are created
visible by default, so the data glyphs of antenna `ant` start visible
exactly when `ant > 0` fails. -/
def initialGlyphVisible (ant : Nat) : Bool := if ant > 0 then false else true

/-- Initial visibility of the data glyphs, one entry per selected antenna
in selection order. -/
def initialVisibilities (plotants : List Nat) : List Bool :=
  plotants.map initialGlyphVisible

/-! ### VisibilityStateMachine: the widget callbacks (source lines 684-840)

The `ant_select` callback and the `batch_select` CoffeeScript callback are
embedded as pure transitions on the state the scripts read and write: the
select-all toggle's `active` flag and `label`, the checkbox group's
`active` index list, and the per-antenna data-glyph visibility flags of
both panels.  The callbacks hardcode batch indices `0..3` and use batch
0's length as every loop bound, so the model fixes the configuration in
which every access the scripts perform is in bounds: 64 antennas, giving
`num_legend_objs = 4` full batches of 16.  Each user event runs exactly
one callback, matching the serialized event model of the rendered page. -/

/-- Number of antennas in the modelled configuration (4 full batches). -/
def NUM_ANTS : Nat := 64

/-- The state the two callbacks read and write. -/
structure VisState where
  antselActive : Bool
  antselLabel : String
  batchActive : List Nat
  vis1 : List Bool
  vis2 : List Bool
deriving DecidableEq

/-- Overwrite entries with indices in `[lo, hi)` by `v`. -/
def setIdxRange (lo hi : Nat) (v : Bool) (vis : List Bool) : List Bool :=
  vis.mapIdx fun i old => if lo ≤ i ∧ i < hi then v else old

/-- The four hardcoded loops of the `batch_select` callback: glyphs of
batch `b` (ranks `[16*b, 16*b+16)`) become visible exactly when `b` is in
the checkbox group's active list. -/
def applyBatchVis (active : List Nat) (vis : List Bool) : List Bool :=
  setIdxRange 48 64 (decide (3 ∈ active)) <|
    setIdxRange 32 48 (decide (2 ∈ active)) <|
      setIdxRange 16 32 (decide (1 ∈ active)) <|
        setIdxRange 0 16 (decide (0 ∈ active)) vis

/-- The two event kinds the claim quantifies over: clicking the select-all
toggle, and clicking checkbox `b` of the batch checkbox group. -/
inductive UIEvent
  | selectAll
  | toggleBatch (b : Nat)

/-- Clicking the toggle flips `this.active`, then the `ant_select`
callback runs: on false it relabels, hides every data glyph and empties
the checkbox group; on true it relabels, shows every data glyph and sets
the group's active list to the hardcoded `[0,1,2,3]`. -/
def stepSelectAll (st : VisState) : VisState :=
  let newActive := !st.antselActive
  if newActive = false then
    { antselActive := newActive
      antselLabel := "Select all Antennas"
      batchActive := []
      vis1 := st.vis1.map fun _ => false
      vis2 := st.vis2.map fun _ => false }
  else
    { antselActive := newActive
      antselLabel := "Deselect all Antennas"
      batchActive := [0, 1, 2, 3]
      vis1 := st.vis1.map fun _ => true
      vis2 := st.vis2.map fun _ => true }

/-- Clicking checkbox `b` adds or removes `b` from the group's active
list, then the `batch_select` callback runs: it sets each batch's glyph
visibility from membership in the new active list, and updates the
select-all toggle only when the active list's length is exactly 4
(all-active) or exactly 0 (none-active); at any other length the toggle's
state and label are left as they were. -/
def stepToggleBatch (st : VisState) (b : Nat) : VisState :=
  let newBatch :=
    if b ∈ st.batchActive then st.batchActive.filter (fun x => x != b)
    else st.batchActive ++ [b]
  let st1 : VisState :=
    { antselActive := st.antselActive
      antselLabel := st.antselLabel
      batchActive := newBatch
      vis1 := applyBatchVis newBatch st.vis1
      vis2 := applyBatchVis newBatch st.vis2 }
  if newBatch.length = 4 then
    { st1 with antselActive := true, antselLabel := "Deselect all Antennas" }
  else if newBatch.length = 0 then
    { st1 with antselActive := false, antselLabel := "Select all Antennas" }
  else st1

/-- One user event. -/
def stepUI (st : VisState) : UIEvent → VisState
  | UIEvent.selectAll => stepSelectAll st
  | UIEvent.toggleBatch b => stepToggleBatch st b

/-- State as rendered: the toggle starts inactive with its creation label,
the checkbox group starts with nothing active, and glyph visibility per
antenna follows the `ant > 0` rule at creation. -/
def initVisState : VisState :=
  { antselActive := false
    antselLabel := "Select All Antennas"
    batchActive := []
    vis1 := initialVisibilities (List.range NUM_ANTS)
    vis2 := initialVisibilities (List.range NUM_ANTS) }

/-- Run a sequence of user events from the rendered initial state. -/
def runUI (evs : List UIEvent) : VisState :=
  evs.foldl stepUI initVisState

/-- Aggregate state of the batch checkboxes: all four batches active. -/
def allBatchesActive (st : VisState) : Bool :=
  [0, 1, 2, 3].all fun b => decide (b ∈ st.batchActive)

/-! ### Effect-trace model of `main` up to its abort points

`main` is modelled as far as the claims about aborts need: every table
read is a `tableQuery` effect, every `print` a `printMsg` effect, and the
final image save a `saveArtifact` effect.  Per-antenna data preparation
and plotting are not modelled; the per-antenna iteration keeps only the
reads, the empty-subtable `times[0]` crash, and the kind dispatch. -/

/-- CLI options of a run, already parsed (`plotants = none` is the `[-1]`
default meaning all antennas). -/
structure Options where
  field : Int
  doplot : String
  plotants : Option (List Int)
deriving DecidableEq

/-- The observable table: its name and its `(ANTENNA1, FIELD_ID)` rows. -/
structure CalTable where
  name : String
  rows : List (Int × Int)
deriving DecidableEq

/-- Observable effects of a run. -/
inductive Eff
  | tableQuery
  | printMsg (s : String)
  | saveArtifact
deriving DecidableEq

/-- How a run ends. -/
inductive Outcome
  | exited (code : Int)
  | crashed (e : PyErr)
  | finished
deriving DecidableEq

/-- Insertion sort by `≤` on `Int`, used to model `np.unique`'s ordering. -/
def insSorted (x : Int) : List Int → List Int
  | [] => [x]
  | y :: ys => if x ≤ y then x :: y :: ys else y :: insSorted x ys

/-- `np.unique`: sorted distinct values of a column. -/
def npUnique (l : List Int) : List Int :=
  (l.dedup).foldr insSorted []

/-- Antennas the run will iterate over: the filtered user list when one
was supplied (source lines 367-379), otherwise every antenna of the
table. -/
def selectedAnts (opts : Options) (tab : CalTable) : List Int :=
  match opts.plotants with
  | none => npUnique (tab.rows.map Prod.fst)
  | some l => filterAnts (npUnique (tab.rows.map Prod.fst)) l

/-- What the kind dispatch makes the current antenna iteration do, by
display mode (source lines 454-496 and 503-536): `ap` proceeds for all
three kinds; `ri` proceeds for `G` and `B` but prints
`"No complex values to plot"` and calls bare `sys.exit()` (exit status 0)
for `K`; an unmatched name crashes with `TypeError` in both modes. -/
inductive StepResult
  | proceed
  | exitRun (code : Int) (msg : String)
  | crash (e : PyErr)
deriving DecidableEq

/-- Dispatch outcome for one antenna iteration. -/
def dispatchStep (doplot : String) (table_name : String) : StepResult :=
  match kindDispatch table_name with
  | Except.error e => StepResult.crash e
  | Except.ok KindBranch.delayK =>
      if doplot = "ri" then StepResult.exitRun 0 "No complex values to plot"
      else StepResult.proceed
  | Except.ok _ => StepResult.proceed

/-- The per-antenna loop (source lines 421-575): each iteration issues the
sub-table query and the `TIME`, `FLAG` and `PARAMERR` reads, crashes like
`times[0]` when the antenna has no row for the field, then dispatches on
the table kind.  After the last antenna the run saves the artifact and
finishes. -/
def antLoop (opts : Options) (tab : CalTable) : List Int → List Eff × Outcome
  | [] => ([Eff.saveArtifact, Eff.printMsg "Rendered"], Outcome.finished)
  | ant :: rest =>
    if (tab.rows.filter fun r => r.1 == ant && r.2 == opts.field).isEmpty then
      (List.replicate 4 Eff.tableQuery, Outcome.crashed PyErr.indexError)
    else
      match dispatchStep opts.doplot tab.name with
      | StepResult.proceed =>
          (List.replicate 4 Eff.tableQuery ++ (antLoop opts tab rest).1,
           (antLoop opts tab rest).2)
      | StepResult.exitRun code msg =>
          (List.replicate 4 Eff.tableQuery ++ [Eff.printMsg msg],
           Outcome.exited code)
      | StepResult.crash e =>
          (List.replicate 4 Eff.tableQuery, Outcome.crashed e)

/-- Control flow of `main` as far as the abort claims need: the `doplot`
validation, the three whole-column reads, the field check, the antenna
selection (with its empty-selection abort), then the per-antenna loop. -/
def runMain (opts : Options) (tab : CalTable) : List Eff × Outcome :=
  if opts.doplot ≠ "ap" ∧ opts.doplot ≠ "ri" then
    ([Eff.printMsg "Plot selection must be either ap (amp and phase) or ri (real and imag)"],
     Outcome.exited (-1))
  else if opts.field ∉ npUnique (tab.rows.map Prod.snd) then
    (List.replicate 3 Eff.tableQuery ++ [Eff.printMsg "Field ID not found"],
     Outcome.exited (-1))
  else if opts.plotants.isSome ∧ selectedAnts opts tab = [] then
    (List.replicate 3 Eff.tableQuery ++
       [Eff.printMsg "No valid antennas have been requested"],
     Outcome.exited (-1))
  else
    (List.replicate 3 Eff.tableQuery ++ (antLoop opts tab (selectedAnts opts tab)).1,
     (antLoop opts tab (selectedAnts opts tab)).2)

/-! ### SolutionTransform for the gain kind: `data_prep_G` (source lines 160-195)

Floats are idealized as real numbers, complex solution values as `ℂ`. -/

/-- numpy `mod(a, n)`: `a - n * floor(a / n)`. -/
noncomputable def npMod (a n : ℝ) : ℝ := a - n * ⌊a / n⌋

/-- The gap-correction term of `np.unwrap` (default period `2*pi`,
discontinuity threshold `pi`) for one raw successive difference `d`: the
difference is wrapped into `(-pi, pi]` (the boundary value `-pi` is mapped
to `+pi` when `d > 0`), the correction is the wrapped difference minus
`d`, and it is zeroed when `|d| < pi`. -/
noncomputable def phCorrect (d : ℝ) : ℝ :=
  if |d| < Real.pi then 0
  else (if npMod (d + Real.pi) (2 * Real.pi) - Real.pi = -Real.pi ∧ 0 < d
        then Real.pi
        else npMod (d + Real.pi) (2 * Real.pi) - Real.pi) - d

/-- Tail of `np.unwrap`: each output sample is the raw sample plus the
running sum (`cumsum`) of the gap corrections of the raw differences. -/
noncomputable def unwrapAux (prev acc : ℝ) : List ℝ → List ℝ
  | [] => []
  | x :: xs =>
    (x + (acc + phCorrect (x - prev))) :: unwrapAux x (acc + phCorrect (x - prev)) xs

/-- `np.unwrap` on a 1-D array with default arguments: the first sample is
kept, the rest are corrected. -/
noncomputable def npUnwrap : List ℝ → List ℝ
  | [] => []
  | x :: xs => x :: unwrapAux x 0 xs

/-- `np.rad2deg`: multiply by `180 / pi`. -/
noncomputable def rad2deg (x : ℝ) : ℝ := x * (180 / Real.pi)

/-- Complex magnitude (`np.abs` on a complex array, elementwise). -/
noncomputable def cAbs (z : ℂ) : ℝ := Complex.abs z

/-- Embedding of `data_prep_G`: in `ap` mode `y1` is the magnitude slice,
`y1_err` the error-magnitude slice, `y2` the phase slice unwrapped and
converted to degrees, `y2_err = None`; in the other (`ri`) mode `y1`/`y2`
are the real and imaginary slices, `y1_err` the error-magnitude slice,
`y2_err = None`.  As in the source, the elementwise operation is applied
to the whole array and the `[:, 0, corr]` slice is taken afterwards. -/
noncomputable def data_prep_G (masked_data masked_data_err : Arr3 ℂ)
    (doplot : String) (corr : Nat) :
    List ℝ × List ℝ × List ℝ × Option (List ℝ) :=
  if doplot = "ap" then
    (sliceC0 (map3 cAbs masked_data) corr 0,
     sliceC0 (map3 cAbs masked_data_err) corr 0,
     (npUnwrap (sliceC0 (map3 Complex.arg masked_data) corr 0)).map rad2deg,
     none)
  else
    (sliceC0 (map3 Complex.re masked_data) corr 0,
     sliceC0 (map3 cAbs masked_data_err) corr 0,
     sliceC0 (map3 Complex.im masked_data) corr 0,
     none)

/-! ## Theorems -/

/-! ### C4: axis-range finalization -/

/-- C4: finalization pads the x axis additively by 400 on both ends,
multiplies a negative y minimum by 1.1 and a non-negative one by 0.9,
multiplies every y maximum by 1.1, and a caller-supplied bound (any value
other than the `-1` "not supplied" sentinel) replaces the computed bound
outright; in particular supplied `yl0`/`yl1` make the lower-panel range
exactly the overrides, whatever the observed extents were. -/
theorem axis_finalize_spec (e : AxisExtents) (o : AxisOverrides) :
    ((finalizeRanges e o).xmin = (if o.t0 ≠ -1 then o.t0 else e.xmin - 400) ∧
     (finalizeRanges e o).xmax = (if o.t1 ≠ -1 then o.t1 else e.xmax + 400) ∧
     (finalizeRanges e o).yumin =
       (if o.yu0 ≠ -1 then o.yu0
        else if e.yumin < 0 then e.yumin * 1.1 else e.yumin * 0.9) ∧
     (finalizeRanges e o).yumax = (if o.yu1 ≠ -1 then o.yu1 else e.yumax * 1.1) ∧
     (finalizeRanges e o).ylmin =
       (if o.yl0 ≠ -1 then o.yl0
        else if e.ylmin < 0 then e.ylmin * 1.1 else e.ylmin * 0.9) ∧
     (finalizeRanges e o).ylmax = (if o.yl1 ≠ -1 then o.yl1 else e.ylmax * 1.1)) ∧
    (o.yl0 ≠ -1 → o.yl1 ≠ -1 →
      (finalizeRanges e o).ylmin = o.yl0 ∧ (finalizeRanges e o).ylmax = o.yl1) := by
  have hneg : ∀ m : ℚ, m < 0 → -(1.1 * |m|) = m * 1.1 := by
    intro m hm
    rw [abs_of_neg hm]
    ring
  constructor
  · refine ⟨rfl, rfl, ?_, rfl, ?_, rfl⟩
    · show (if o.yu0 ≠ -1 then o.yu0
            else if e.yumin < 0 then -(1.1 * |e.yumin|) else e.yumin * 0.9) = _
      split_ifs with h1 h2
      · rfl
      · exact hneg _ h2
      · rfl
    · show (if o.yl0 ≠ -1 then o.yl0
            else if e.ylmin < 0 then -(1.1 * |e.ylmin|) else e.ylmin * 0.9) = _
      split_ifs with h1 h2
      · rfl
      · exact hneg _ h2
      · rfl
  · intro h0 h1
    constructor
    · show (if o.yl0 ≠ -1 then o.yl0
            else if e.ylmin < 0 then -(1.1 * |e.ylmin|) else e.ylmin * 0.9) = _
      rw [if_pos h0]
    · show (if o.yl1 ≠ -1 then o.yl1 else e.ylmax * 1.1) = _
      rw [if_pos h1]

/-- Witness for C4 at concrete extents and overrides. -/
theorem axis_finalize_spec_witness :
    (finalizeRanges ⟨0, 10, -2, 3, -4, 5⟩ ⟨-1, -1, -1, -1, 7, 9⟩).ylmin = 7 ∧
    (finalizeRanges ⟨0, 10, -2, 3, -4, 5⟩ ⟨-1, -1, -1, -1, 7, 9⟩).ylmax = 9 :=
  (axis_finalize_spec ⟨0, 10, -2, 3, -4, 5⟩ ⟨-1, -1, -1, -1, 7, 9⟩).2
    (by norm_num) (by norm_num)

/-! ### C5: legend batching -/

/-- The dead `i == num_legend_objs` branch never fires, so the batching
loop is plain chunking. -/
theorem mkBatches_eq {α : Type} (items : List α) :
    mkBatches items = (List.range (num_legend_objs items.length)).map
      fun i => (items.drop (16 * i)).take 16 := by
  unfold mkBatches
  refine List.map_congr_left ?_
  intro i hi
  rw [List.mem_range] at hi
  rw [if_neg (by omega)]
  rfl

/-- Chunking `k` slices of 16 reassembles the first `16 * k` elements. -/
theorem chunks_join {α : Type} (k : Nat) (l : List α) :
    ((List.range k).map fun i => (l.drop (16 * i)).take 16).flatten
      = l.take (16 * k) := by
  induction k with
  | zero => simp
  | succ k ih =>
    rw [List.range_succ, List.map_append, List.flatten_append]
    simp only [List.map_cons, List.map_nil, List.flatten_cons, List.flatten_nil,
      List.append_nil]
    rw [ih, show 16 * (k + 1) = 16 * k + 16 by ring, List.take_add]

/-- C5: for an antenna-ordered handle list of length `n`, batching with
batch size 16 yields exactly `(n + 15) / 16 = ceil(n / 16)` batches, batch
`i` holds exactly the handles at ranks `[i*16, min((i+1)*16, n))` in the
given order, and concatenating the batches in index order reproduces the
original list. -/
theorem legend_batching_spec {α : Type} (handles : List α) :
    (mkBatches handles).length = (handles.length + 15) / 16 ∧
    (∀ i : Nat, (mkBatches handles).getD i [] =
      if i < (handles.length + 15) / 16
      then (handles.drop (i * 16)).take 16 else []) ∧
    (mkBatches handles).flatten = handles := by
  have hnum : num_legend_objs handles.length = (handles.length + 15) / 16 := rfl
  refine ⟨?_, ?_, ?_⟩
  · rw [mkBatches_eq, List.length_map, List.length_range, hnum]
  · intro i
    rw [mkBatches_eq]
    by_cases hi : i < (handles.length + 15) / 16
    · rw [if_pos hi, List.getD_eq_getElem?_getD, List.getElem?_map,
        List.getElem?_range (by rw [hnum]; exact hi)]
      simp [Nat.mul_comm]
    · rw [if_neg hi, List.getD_eq_getElem?_getD, List.getElem?_eq_none]
      · rfl
      · rw [List.length_map, List.length_range, hnum]
        omega
  · rw [mkBatches_eq, chunks_join]
    apply List.take_of_length_le
    rw [hnum]
    omega

/-! ### C7: the delay-kind transform -/

/-- C7: for correlation index 0 or 1, `data_prep_K` returns the value
slice at the requested correlation as `y1`, the value slice at the
complementary correlation (`1 - corr`) as `y2`, and passes the error
array through unmodified as both `y1_err` and `y2_err`. -/
theorem data_prep_K_spec {α : Type} (md mde : Arr3 α) (corr : Nat) (d : α)
    (hcorr : corr ≤ 1) :
    data_prep_K md mde corr d =
      (sliceC0 md corr d, mde, sliceC0 md (1 - corr) d, mde) := by
  interval_cases corr
  · rfl
  · rfl

/-- Witness for C7 at a concrete two-correlation array. -/
theorem data_prep_K_spec_witness :
    data_prep_K [[[(10 : Int), 20]]] [[[(3 : Int)]]] 0 0 =
      ([10], [[[3]]], [20], [[[3]]]) := by
  rw [data_prep_K_spec [[[(10 : Int), 20]]] [[[(3 : Int)]]] 0 0 (by decide)]
  decide

/-! ### C10: initial glyph visibility -/

/-- C10: the initial visibility of the data glyphs keys on the antenna ID
(`ant > 0` hides), not on selection rank: an antenna is created visible
exactly when its ID is 0, so a selection that excludes antenna 0 starts
with every data glyph hidden. -/
theorem initial_visibility_spec (plotants : List Nat) :
    (∀ ant ∈ plotants, (initialGlyphVisible ant = true ↔ ant = 0)) ∧
    (0 ∉ plotants → ∀ v ∈ initialVisibilities plotants, v = false) := by
  constructor
  · intro ant _
    unfold initialGlyphVisible
    split_ifs with h
    · simp
      omega
    · simp
      omega
  · intro h0 v hv
    rcases List.mem_map.1 hv with ⟨a, ha, rfl⟩
    unfold initialGlyphVisible
    split_ifs with h
    · rfl
    · exfalso
      have ha0 : a = 0 := by omega
      exact h0 (ha0 ▸ ha)

/-- Witness for C10: in the selection `[1, 2]`, which excludes antenna 0,
both antennas' data glyphs start hidden. -/
theorem initial_visibility_spec_witness :
    initialGlyphVisible 1 = false ∧ initialGlyphVisible 2 = false := by
  have h := (initial_visibility_spec [1, 2]).2 (by decide)
  exact ⟨h _ (by decide), h _ (by decide)⟩

/-! ### C1: the select-all/batch-checkbox synchronization invariant -/

/-- C1 (failing input): with 4 full batches of 16, after selecting all
antennas and then unchecking batch checkbox 0, the checkbox callback
hides batch 0's glyphs and leaves batches 1-3 visible, but — because the
callback only touches the select-all toggle when the active count is
exactly 4 or exactly 0 — the select-all toggle still displays
active/"Deselect all Antennas" although the AND of the batch checkboxes
is false.  The displayed select-all state therefore diverges from the
batch checkboxes' aggregate state after this event sequence. -/
theorem select_all_sync_failure :
    (runUI [UIEvent.selectAll, UIEvent.toggleBatch 0]).antselActive = true ∧
    (runUI [UIEvent.selectAll, UIEvent.toggleBatch 0]).antselLabel =
      "Deselect all Antennas" ∧
    allBatchesActive (runUI [UIEvent.selectAll, UIEvent.toggleBatch 0]) = false ∧
    (runUI [UIEvent.selectAll, UIEvent.toggleBatch 0]).vis1.take 16 =
      List.replicate 16 false ∧
    (runUI [UIEvent.selectAll, UIEvent.toggleBatch 0]).vis1.drop 16 =
      List.replicate 48 true := by
  refine ⟨rfl, rfl, rfl, ?_, ?_⟩
  · decide
  · decide

/-! ### C9: antenna-selection filtering -/

/-- C9 (counterexample): with table antennas `{0, 1, 2}` and user list
`[5, 6]`, the remove-while-iterating pass removes 5 but the iterator then
skips 6, so the invalid antenna 6 survives the filtering and the run does
not abort (the result is non-empty). -/
theorem antenna_filter_counterexample :
    filterAnts [0, 1, 2] [5, 6] = [6] ∧
    (6 : Int) ∉ ([0, 1, 2] : List Int) ∧
    filterAnts [0, 1, 2] [5, 6] ≠ [] := by
  refine ⟨rfl, by decide, by decide⟩

/-! ### C3: display mode `ri` on a delay-type table -/

/-- C3 (counterexample): running with `doplot = "ri"` on the K-table
`"cal.K"` holding one row for antenna 0, field 0, ends with `sys.exit()`
— exit status 0, not non-zero — and the trace already contains table
queries before the abort (the whole-column reads and the first antenna's
sub-table reads), contradicting "non-zero termination before any table
query is issued"; no artifact is emitted. -/
theorem ri_delay_abort_counterexample :
    (runMain ⟨0, "ri", none⟩ ⟨"cal.K", [(0, 0)]⟩).2 = Outcome.exited 0 ∧
    Eff.tableQuery ∈ (runMain ⟨0, "ri", none⟩ ⟨"cal.K", [(0, 0)]⟩).1 ∧
    Eff.printMsg "No complex values to plot" ∈
      (runMain ⟨0, "ri", none⟩ ⟨"cal.K", [(0, 0)]⟩).1 ∧
    Eff.saveArtifact ∉ (runMain ⟨0, "ri", none⟩ ⟨"cal.K", [(0, 0)]⟩).1 := by
  decide

/-! ### C6 and C8: the classifier and its caller's dispatch -/

/-- A successful search returns a pattern match that is a suffix of the
searched text. -/
theorem reSearch_some {l m : List Char} (h : reSearch l = some m) :
    suffixMatch m = true ∧ m <:+ l := by
  induction l with
  | nil => simp [reSearch] at h
  | cons c cs ih =>
    rw [reSearch] at h
    split_ifs at h with hm
    · injection h with h
      subst h
      exact ⟨hm, List.suffix_refl _⟩
    · have hr := ih h
      exact ⟨hr.1, hr.2.trans (List.suffix_cons c cs)⟩

/-- If some suffix of the text matches the pattern, the search succeeds. -/
theorem reSearch_some_of_suffix {l m : List Char} (hm : suffixMatch m = true)
    (hs : m <:+ l) : ∃ m', reSearch l = some m' := by
  induction l with
  | nil =>
    rw [List.suffix_nil] at hs
    subst hs
    simp [suffixMatch] at hm
  | cons c cs ih =>
    rw [reSearch]
    split_ifs with h
    · exact ⟨_, rfl⟩
    · rcases List.suffix_cons_iff.1 hs with rfl | hs'
      · rw [hm] at h
        exact absurd rfl h
      · exact ih hs'

/-- Shape of a pattern match: a dot, a kind letter, then digits. -/
theorem suffixMatch_shape {m : List Char} (h : suffixMatch m = true) :
    ∃ k ds, m = '.' :: k :: ds ∧ isKindLetter k = true ∧
      ds.all Char.isDigit = true := by
  match m with
  | [] => simp [suffixMatch] at h
  | [c] => simp [suffixMatch] at h
  | c :: k :: ds =>
    rw [suffixMatch] at h
    simp only [Bool.and_eq_true, decide_eq_true_eq] at h
    exact ⟨k, ds, by rw [h.1.1], h.1.2, h.2⟩

/-- Neither a kind letter nor a digit is a dot. -/
theorem dot_not_mem_tail {k : Char} {ds : List Char}
    (hk : isKindLetter k = true) (hds : ds.all Char.isDigit = true) :
    ('.' : Char) ∉ k :: ds := by
  intro hmem
  rcases List.mem_cons.1 hmem with h | h
  · rw [← h] at hk
    exact absurd hk (by decide)
  · have hd := List.all_eq_true.1 hds _ h
    exact absurd hd (by decide)

/-- Matches cannot be nested: the tail of a match has no dot, so two
matching suffixes of the same text coincide. -/
theorem valid_suffix_unique {l m1 m2 : List Char}
    (h1 : suffixMatch m1 = true) (h2 : suffixMatch m2 = true)
    (s1 : m1 <:+ l) (s2 : m2 <:+ l) : m1 = m2 := by
  have key : ∀ {a b : List Char}, suffixMatch a = true → suffixMatch b = true →
      a <:+ b → a = b := by
    intro a b ha hb hab
    rcases suffixMatch_shape hb with ⟨k, ds, rfl, hk, hds⟩
    rcases List.suffix_cons_iff.1 hab with rfl | hab'
    · rfl
    · exfalso
      rcases suffixMatch_shape ha with ⟨k1, ds1, rfl, -, -⟩
      exact dot_not_mem_tail hk hds
        (hab'.subset (List.mem_cons_self '.' (k1 :: ds1)))
  rcases List.suffix_or_suffix_of_suffix s1 s2 with h | h
  · exact key h1 h2 h
  · exact (key h2 h1 h).symm

/-- C6: for every table identifier, if the name ends in a dot, one of the
kind letters `G`/`K`/`B` in either case, and a (possibly empty) run of
digits, the classifier returns exactly that suffix uppercased; if no such
suffix exists it returns the sentinel `-1`. -/
theorem determine_table_spec (s : String) :
    (∀ (k : Char) (ds : List Char), ('.' :: k :: ds) <:+ s.data →
       isKindLetter k = true → ds.all Char.isDigit = true →
       determine_table s =
         Sum.inl (String.mk (('.' :: k :: ds).map Char.toUpper))) ∧
    ((∀ (k : Char) (ds : List Char), ('.' :: k :: ds) <:+ s.data →
       isKindLetter k = true → ds.all Char.isDigit = true → False) →
       determine_table s = Sum.inr (-1)) := by
  constructor
  · intro k ds hsuf hk hds
    have hm : suffixMatch ('.' :: k :: ds) = true := by
      rw [suffixMatch, hk, hds]
      rfl
    rcases reSearch_some_of_suffix hm hsuf with ⟨m', hm'⟩
    rcases reSearch_some hm' with ⟨hmatch, hsuffix⟩
    have heq : m' = '.' :: k :: ds := valid_suffix_unique hmatch hm hsuffix hsuf
    unfold determine_table
    rw [hm', heq]
  · intro hno
    unfold determine_table
    cases hr : reSearch s.data with
    | none => rfl
    | some m =>
      exfalso
      rcases reSearch_some hr with ⟨hmm, hms⟩
      rcases suffixMatch_shape hmm with ⟨k, ds, rfl, hk, hds⟩
      exact hno k ds hms hk hds

/-- Witness for C6: a lowercase versioned suffix and a suffix-free name. -/
theorem determine_table_spec_witness :
    determine_table "mycal.g2" = Sum.inl ".G2" :=
  ((determine_table_spec "mycal.g2").1 'g' ['2']
    ⟨['m', 'y', 'c', 'a', 'l'], rfl⟩ (by decide) (by decide)).trans (by decide)

/-- C8: when the classifier finds no match it returns the int `-1`, and
the caller's `".G" in determine_table(mytab)` test on that int raises
`TypeError`; consequently the `elif determine_table(mytab) == -1` branch
that would print "Invalid table" and exit is unreachable for every table
name. -/
theorem invalid_table_unreachable :
    (∀ name : String, determine_table name = Sum.inr (-1) →
       kindDispatch name = Except.error PyErr.typeError) ∧
    (∀ name : String, kindDispatch name ≠ Except.ok KindBranch.invalidTable) := by
  constructor
  · intro name h
    unfold kindDispatch
    rw [h]
    rfl
  · intro name
    unfold kindDispatch
    cases hdt : determine_table name with
    | inl s =>
      cases hg : decide (".G".data <:+: s.data) with
      | true => simp [strIn, hg]
      | false =>
        cases hb : decide (".B".data <:+: s.data) with
        | true => simp [strIn, hg, hb]
        | false =>
          cases hk : decide (".K".data <:+: s.data) with
          | true => simp [strIn, hg, hb, hk]
          | false => simp [strIn, hg, hb, hk]
    | inr v => simp [strIn]

/-- Witness for C8: a name with no kind suffix classifies to `-1` and its
dispatch raises `TypeError`. -/
theorem invalid_table_unreachable_witness :
    kindDispatch "bandpass_table" = Except.error PyErr.typeError :=
  invalid_table_unreachable.1 "bandpass_table" (by decide)

/-! ### C9 (amended) and C3 (amended) -/

/-- When the scanned element does not occur earlier, `list.remove` deletes
exactly the element at the scan position. -/
theorem pyRemove_take_drop :
    ∀ (l : List Int) (i : Nat), ∀ h : i < l.length,
      (∀ x ∈ l.take i, x ≠ l[i]) →
      pyRemove l l[i] = l.take i ++ l.drop (i + 1) := by
  intro l
  induction l with
  | nil => intro i h; simp at h
  | cons x xs ih =>
    intro i h hpre
    match i with
    | 0 => simp [pyRemove]
    | i + 1 =>
      have hi : i < xs.length := by simpa using h
      have hx : x ≠ (x :: xs)[i + 1] := hpre x (by simp [List.take_succ_cons])
      rw [List.getElem_cons_succ] at hx ⊢
      rw [pyRemove, if_neg hx, List.take_succ_cons, List.drop_succ_cons,
        List.cons_append]
      congr 1
      apply ih i hi
      intro y hy
      exact hpre y (by simp [List.take_succ_cons, hy])

/-- Invariant of the filtering scan: if everything before the scan index
is valid and no two adjacent entries from the scan index on are both
invalid, everything that survives is valid. -/
theorem filterAntsGo_all_valid {ants : List Int} :
    ∀ (fuel : Nat) (l : List Int) (i : Nat),
      l.length - i ≤ fuel →
      (∀ x ∈ l.take i, x ∈ ants) →
      List.Chain' (fun x y => x ∈ ants ∨ y ∈ ants) (l.drop i) →
      ∀ a ∈ filterAntsGo ants fuel l i, a ∈ ants := by
  intro fuel
  induction fuel with
  | zero =>
    intro l i hfuel hpre _ a ha
    rw [filterAntsGo] at ha
    have htake : l.take i = l := List.take_of_length_le (by omega)
    exact hpre a (by rw [htake]; exact ha)
  | succ fuel ih =>
    intro l i hfuel hpre hchain a ha
    rw [filterAntsGo] at ha
    by_cases hlen : i < l.length
    · rw [dif_pos hlen] at ha
      have hdrop : l.drop i = l[i] :: l.drop (i + 1) :=
        List.drop_eq_getElem_cons hlen
      by_cases hval : l[i] ∈ ants
      · rw [if_pos hval] at ha
        refine ih l (i + 1) (by omega) ?_ ?_ a ha
        · intro x hx
          rw [List.take_succ, List.getElem?_eq_getElem hlen] at hx
          rcases List.mem_append.1 hx with hx | hx
          · exact hpre x hx
          · rw [List.mem_singleton.1 hx]
            exact hval
        · rw [← List.tail_drop]
          exact hchain.tail
      · rw [if_neg hval] at ha
        have hnomem : ∀ x ∈ l.take i, x ≠ l[i] := by
          intro x hx hcon
          exact hval (hcon ▸ hpre x hx)
        rw [pyRemove_take_drop l i hlen hnomem] at ha
        have hlentake : (l.take i).length = i := by
          rw [List.length_take]
          omega
        refine ih (l.take i ++ l.drop (i + 1)) (i + 1) ?_ ?_ ?_ a ha
        · rw [List.length_append, List.length_drop, hlentake]
          omega
        · intro x hx
          have htake1 := @List.take_append Int (l.take i) (l.drop (i + 1)) 1
          rw [hlentake] at htake1
          rw [htake1] at hx
          rcases List.mem_append.1 hx with hx | hx
          · exact hpre x hx
          · rw [hdrop] at hchain
            cases hd1 : l.drop (i + 1) with
            | nil => rw [hd1] at hx; simp at hx
            | cons c rest =>
              rw [hd1] at hx hchain
              have hc : c ∈ ants := by
                rcases (List.chain'_cons.1 hchain).1 with hcon | hc
                · exact absurd hcon hval
                · exact hc
              simp only [List.take_succ_cons, List.take_zero] at hx
              rcases List.mem_singleton.1 hx with rfl
              exact hc
        · have hdrop1 := @List.drop_append Int (l.take i) (l.drop (i + 1)) 1
          rw [hlentake] at hdrop1
          rw [hdrop1, List.drop_one]
          have hchain1 : List.Chain' (fun x y => x ∈ ants ∨ y ∈ ants)
              (l.drop (i + 1)) := by
            rw [hdrop] at hchain
            exact hchain.tail
          exact hchain1.tail
    · rw [dif_neg hlen] at ha
      have htake : l.take i = l := List.take_of_length_le (by omega)
      exact hpre a (by rw [htake]; exact ha)

/-- C9 (amended): the filtering pass can retain an invalid antenna ID
(an invalid entry that immediately follows a removed invalid entry is
skipped), but whenever no two consecutive entries of the user-supplied
list are both invalid — in particular whenever validation removes nothing
or removes isolated entries — every antenna ID retained in the selection
is a member of the table's antenna set. -/
theorem antenna_filter_amended (ants l : List Int)
    (hadj : List.Chain' (fun x y => x ∈ ants ∨ y ∈ ants) l) :
    ∀ a ∈ filterAnts ants l, a ∈ ants := by
  unfold filterAnts
  refine filterAntsGo_all_valid l.length l 0 (by omega) (by simp) ?_
  simpa using hadj

/-- Witness for C9 (amended): an invalid entry between two valid ones is
removed and every survivor is valid. -/
theorem antenna_filter_amended_witness :
    filterAnts [0, 1, 2] [5, 0, 6] = [0] ∧
      (0 : Int) ∈ ([0, 1, 2] : List Int) :=
  ⟨by decide,
   antenna_filter_amended [0, 1, 2] [5, 0, 6]
     (List.chain'_cons.2 ⟨Or.inr (by decide),
       List.chain'_cons.2 ⟨Or.inl (by decide), List.chain'_singleton 6⟩⟩)
     0 (by decide)⟩

/-- C3 (amended): a run in `ri` mode on a delay-type table that reaches
the antenna loop (valid display mode and field, non-empty selection, and
at least one row for the first selected antenna) prints the user-facing
message "No complex values to plot" and terminates via `sys.exit()` with
exit status 0 — not non-zero — after table queries have already been
issued; no artifact is emitted on this path. -/
theorem ri_delay_abort_amended (opts : Options) (tab : CalTable)
    (hri : opts.doplot = "ri")
    (hkind : kindDispatch tab.name = Except.ok KindBranch.delayK)
    (hfield : opts.field ∈ npUnique (tab.rows.map Prod.snd))
    (hsel : selectedAnts opts tab ≠ [])
    (hrow : (tab.rows.filter fun r =>
        r.1 == (selectedAnts opts tab).headI && r.2 == opts.field).isEmpty
      = false) :
    (runMain opts tab).2 = Outcome.exited 0 ∧
    Eff.printMsg "No complex values to plot" ∈ (runMain opts tab).1 ∧
    Eff.tableQuery ∈ (runMain opts tab).1 ∧
    Eff.saveArtifact ∉ (runMain opts tab).1 := by
  obtain ⟨a, rest, hcons⟩ := List.exists_cons_of_ne_nil hsel
  have hd : dispatchStep opts.doplot tab.name =
      StepResult.exitRun 0 "No complex values to plot" := by
    unfold dispatchStep
    rw [hkind, hri]
    rfl
  have hrow' : (tab.rows.filter fun r =>
      r.1 == a && r.2 == opts.field).isEmpty = false := by
    rw [hcons] at hrow
    exact hrow
  have hloop : antLoop opts tab (selectedAnts opts tab) =
      (List.replicate 4 Eff.tableQuery ++
         [Eff.printMsg "No complex values to plot"],
       Outcome.exited 0) := by
    rw [hcons, antLoop, if_neg (by rw [hrow']; exact Bool.false_ne_true), hd]
  have hmain : runMain opts tab =
      (List.replicate 3 Eff.tableQuery ++
         (List.replicate 4 Eff.tableQuery ++
           [Eff.printMsg "No complex values to plot"]),
       Outcome.exited 0) := by
    unfold runMain
    rw [if_neg (by rw [hri]; simp), if_neg (by simp [hfield]),
      if_neg (fun hc => hsel hc.2), hloop]
  rw [hmain]
  refine ⟨rfl, by simp, by simp, by simp⟩

/-- Witness for C3 (amended) at the concrete failing run. -/
theorem ri_delay_abort_amended_witness :
    (runMain ⟨0, "ri", none⟩ ⟨"gains.K1", [(0, 0), (1, 0)]⟩).2 =
      Outcome.exited 0 ∧
    Eff.printMsg "No complex values to plot" ∈
      (runMain ⟨0, "ri", none⟩ ⟨"gains.K1", [(0, 0), (1, 0)]⟩).1 ∧
    Eff.tableQuery ∈ (runMain ⟨0, "ri", none⟩ ⟨"gains.K1", [(0, 0), (1, 0)]⟩).1 ∧
    Eff.saveArtifact ∉
      (runMain ⟨0, "ri", none⟩ ⟨"gains.K1", [(0, 0), (1, 0)]⟩).1 :=
  ri_delay_abort_amended ⟨0, "ri", none⟩ ⟨"gains.K1", [(0, 0), (1, 0)]⟩
    rfl rfl (by decide) (by decide) (by decide)

/-! ### C2: the gain-kind transform -/

/-- Reading a mapped list with the mapped default commutes with `map`. -/
theorem getD_map {α β : Type} (f : α → β) :
    ∀ (l : List α) (n : Nat) (d : α), (l.map f).getD n (f d) = f (l.getD n d) := by
  intro l
  induction l with
  | nil => intro n d; rfl
  | cons x xs ih =>
    intro n d
    match n with
    | 0 => rfl
    | n + 1 => exact ih n d

/-- Slicing after an elementwise 3-D map equals mapping the slice, when
the defaults correspond. -/
theorem sliceC0_map3 {α β : Type} (f : α → β) (a : Arr3 α) (c : Nat) (d : α) :
    sliceC0 (map3 f a) c (f d) = (sliceC0 a c d).map f := by
  unfold sliceC0 map3
  rw [List.map_map, List.map_map]
  apply List.map_congr_left
  intro row _
  simp only [Function.comp_apply]
  cases row with
  | nil => rfl
  | cons r rs => exact getD_map f r c d

/-- The `np.abs` slice is the magnitude map of the raw slice. -/
theorem sliceC0_abs (a : Arr3 ℂ) (c : Nat) :
    sliceC0 (map3 cAbs a) c 0 = (sliceC0 a c 0).map cAbs := by
  have h : (0 : ℝ) = cAbs 0 := (map_zero Complex.abs).symm
  rw [h, sliceC0_map3]

/-- The `np.angle` slice is the argument map of the raw slice. -/
theorem sliceC0_arg (a : Arr3 ℂ) (c : Nat) :
    sliceC0 (map3 Complex.arg a) c 0 = (sliceC0 a c 0).map Complex.arg := by
  have h : (0 : ℝ) = Complex.arg 0 := Complex.arg_zero.symm
  rw [h, sliceC0_map3]

/-- The `np.real` slice is the real-part map of the raw slice. -/
theorem sliceC0_re (a : Arr3 ℂ) (c : Nat) :
    sliceC0 (map3 Complex.re a) c 0 = (sliceC0 a c 0).map Complex.re := by
  have h : (0 : ℝ) = Complex.re 0 := Complex.zero_re.symm
  rw [h, sliceC0_map3]

/-- The `np.imag` slice is the imaginary-part map of the raw slice. -/
theorem sliceC0_im (a : Arr3 ℂ) (c : Nat) :
    sliceC0 (map3 Complex.im a) c 0 = (sliceC0 a c 0).map Complex.im := by
  have h : (0 : ℝ) = Complex.im 0 := Complex.zero_im.symm
  rw [h, sliceC0_map3]

/-- C2: in `ap` mode the gain-kind transform returns the magnitudes of
the sliced values, the magnitudes of the sliced errors, the phases of the
sliced values unwrapped and converted to degrees, and no `y2` error; in
`ri` mode it returns real parts, error magnitudes, imaginary parts, and
no `y2` error.  At the concrete unmasked samples `1+1j, 2+0j` in `ap`
mode, `y1 = [sqrt 2, 2]` and `y2 = [45, 0]` in degrees, and `sqrt 2` is
`1.414` to three decimals (within `1/1000`). -/
theorem data_prep_G_spec :
    (∀ (md mde : Arr3 ℂ) (corr : Nat),
       data_prep_G md mde "ap" corr =
         ((sliceC0 md corr 0).map cAbs,
          (sliceC0 mde corr 0).map cAbs,
          (npUnwrap ((sliceC0 md corr 0).map Complex.arg)).map rad2deg,
          none)) ∧
    (∀ (md mde : Arr3 ℂ) (corr : Nat),
       data_prep_G md mde "ri" corr =
         ((sliceC0 md corr 0).map Complex.re,
          (sliceC0 mde corr 0).map cAbs,
          (sliceC0 md corr 0).map Complex.im,
          none)) ∧
    data_prep_G [[[1 + Complex.I]], [[2]]] [[[0]], [[0]]] "ap" 0 =
      ([Real.sqrt 2, 2], [0, 0], [45, 0], none) ∧
    |Real.sqrt 2 - 1.414| < 1 / 1000 := by
  have hap : ∀ (md mde : Arr3 ℂ) (corr : Nat),
      data_prep_G md mde "ap" corr =
        ((sliceC0 md corr 0).map cAbs,
         (sliceC0 mde corr 0).map cAbs,
         (npUnwrap ((sliceC0 md corr 0).map Complex.arg)).map rad2deg,
         none) := by
    intro md mde corr
    unfold data_prep_G
    rw [if_pos rfl, sliceC0_abs, sliceC0_abs, sliceC0_arg]
  have hri : ∀ (md mde : Arr3 ℂ) (corr : Nat),
      data_prep_G md mde "ri" corr =
        ((sliceC0 md corr 0).map Complex.re,
         (sliceC0 mde corr 0).map cAbs,
         (sliceC0 md corr 0).map Complex.im,
         none) := by
    intro md mde corr
    unfold data_prep_G
    rw [if_neg (by decide), sliceC0_re, sliceC0_abs, sliceC0_im]
  have h3 : Real.sqrt 2 * Real.sqrt 2 = 2 := Real.mul_self_sqrt (by norm_num)
  refine ⟨hap, hri, ?_, ?_⟩
  · have habs1 : cAbs (1 + Complex.I) = Real.sqrt 2 := by
      unfold cAbs
      rw [Complex.abs_apply]
      congr 1
      rw [Complex.normSq_apply]
      simp
      norm_num
    have habs2 : cAbs 2 = 2 := Complex.abs_two
    have habs0 : cAbs 0 = 0 := map_zero Complex.abs
    have hkey : ((Real.sqrt 2 : ℝ) : ℂ) *
        (Complex.cos ((Real.pi / 4 : ℝ) : ℂ) +
         Complex.sin ((Real.pi / 4 : ℝ) : ℂ) * Complex.I) = 1 + Complex.I := by
      rw [← Complex.ofReal_cos, ← Complex.ofReal_sin, Real.cos_pi_div_four,
        Real.sin_pi_div_four]
      apply Complex.ext
      · simp
        linear_combination h3 / 2
      · simp
        linear_combination h3 / 2
    have harg1 : Complex.arg (1 + Complex.I) = Real.pi / 4 := by
      rw [← hkey]
      exact @Complex.arg_mul_cos_add_sin_mul_I (Real.sqrt 2) (by positivity)
        (Real.pi / 4) ⟨by linarith [Real.pi_pos], by linarith [Real.pi_pos]⟩
    have harg2 : Complex.arg 2 = 0 := by
      have hcast : ((2 : ℝ) : ℂ) = (2 : ℂ) := by norm_cast
      rw [← hcast]
      exact Complex.arg_ofReal_of_nonneg (by norm_num)
    have hphc : phCorrect (0 - Real.pi / 4) = 0 := by
      have hlt : |(0 : ℝ) - Real.pi / 4| < Real.pi := by
        rw [zero_sub, abs_neg, abs_of_pos (by positivity)]
        linarith [Real.pi_pos]
      unfold phCorrect
      rw [if_pos hlt]
    have hun : npUnwrap [Real.pi / 4, 0] = [Real.pi / 4, 0] := by
      have e1 : npUnwrap [Real.pi / 4, 0] =
          [Real.pi / 4, 0 + (0 + phCorrect (0 - Real.pi / 4))] := rfl
      rw [e1, hphc]
      norm_num
    have hdeg1 : rad2deg (Real.pi / 4) = 45 := by
      unfold rad2deg
      have hpi := Real.pi_ne_zero
      field_simp
      ring
    have hdeg0 : rad2deg 0 = 0 := by
      unfold rad2deg
      ring
    rw [hap]
    have hsl : sliceC0 ([[[1 + Complex.I]], [[2]]] : Arr3 ℂ) 0 0 =
        [1 + Complex.I, 2] := rfl
    have hsle : sliceC0 ([[[0]], [[0]]] : Arr3 ℂ) 0 0 = [(0 : ℂ), 0] := rfl
    rw [hsl, hsle]
    simp only [List.map_cons, List.map_nil]
    rw [habs1, habs2, habs0, harg1, harg2, hun]
    simp only [List.map_cons, List.map_nil]
    rw [hdeg1, hdeg0]
  · have h1 : (1.414 : ℝ) < Real.sqrt 2 := by
      rw [Real.lt_sqrt (by norm_num)]
      norm_num
    have h2 : Real.sqrt 2 < 1.415 := by
      rw [Real.sqrt_lt' (by norm_num)]
      norm_num
    rw [abs_sub_lt_iff]
    constructor
    · linarith
    · linarith

end Ragavi
